import Mathlib

/-!
Verification of the BACnet stack core against its specification.

The development shallowly embeds:
* the BACnet/IP BSD datalink driver (`bip_*` functions from the
  BSD `bip.c` port): file-scope driver state becomes an explicit
  `BIPState` record, OS effects (`select`, `recvfrom`, `sendto`,
  `socket`/`bind`, `getifaddrs`) become explicit environment records
  holding the values those calls return, and the BVLC handlers
  (which live outside the sources at hand) become environment-supplied
  result values;
* the WriteProperty service handler (`handler_write_property` from
  `h_wp.c`), with its external collaborators
  (`wp_decode_service_request`, `Device_Write_Property`, etc.)
  supplied through an environment record;
* the ring buffer (`ringbuf.h`); its implementation file is not among
  the sources at hand, so the operations are modelled from the
  specification's contract and the header's declarations.

IPv4 addresses and UDP ports are stored by the driver in network byte
order and only ever copied byte-wise (`memcpy`) or compared for
equality, so they are embedded as byte lists (`List Nat`), length 4
for an address and length 2 for a port.
-/

/-- `BVLL_TYPE_BACNET_IP` (0x81): first byte of every BACnet/IP datagram. -/
def BVLL_TYPE_BACNET_IP : Nat := 0x81

/-- `BACNET_BROADCAST_NETWORK` (0xFFFF): the broadcast network sentinel. -/
def BACNET_BROADCAST_NETWORK : Nat := 0xFFFF

/-- `MAX_MAC_LEN` (7) from bacdef.h: size of the `mac` and `adr` arrays. -/
def MAX_MAC_LEN : Nat := 7

/-- BACnet datalink address (`struct BACNET_ADDRESS` from bacdef.h):
MAC length and MAC bytes, destination network number, source length,
and source address bytes. -/
structure BACNET_ADDRESS where
  mac_len : Nat
  mac : List Nat
  net : Nat
  len : Nat
  adr : List Nat
deriving DecidableEq

/-- File-scope state of the BACnet/IP BSD datalink driver (`bip.c`):
the two UDP socket descriptors, the UDP port and the IPv4 unicast and
broadcast addresses (network-byte-order byte lists), and the broadcast
socket binding override. -/
structure BIPState where
  BIP_Socket : Int
  BIP_Broadcast_Socket : Int
  BIP_Port : List Nat
  BIP_Address : List Nat
  BIP_Broadcast_Addr : List Nat
  BIP_Broadcast_Binding_Address_Override : Bool
  BIP_Broadcast_Binding_Address : List Nat
deriving DecidableEq

/-- `bip_valid`: the datalink is valid iff `BIP_Socket != -1`. -/
def bip_valid (s : BIPState) : Bool :=
  s.BIP_Socket ≠ -1

/-- `bip_get_my_address`: fills a `BACNET_ADDRESS` with `mac_len = 6`,
the MAC being 4 bytes of `BIP_Address` followed by 2 bytes of
`BIP_Port` (both network byte order, copied with `memcpy`), `net = 0`
(local only, no routing), `len = 0` (no SLEN), and all `MAX_MAC_LEN`
bytes of `adr` zeroed (no SADR).  The bytes of the caller's `mac`
array beyond index 5 are not written. -/
def bip_get_my_address (addr : BACNET_ADDRESS) (s : BIPState) : BACNET_ADDRESS :=
  { addr with
    mac_len := 6
    mac := s.BIP_Address ++ s.BIP_Port ++ addr.mac.drop 6
    net := 0
    len := 0
    adr := List.replicate MAX_MAC_LEN 0 }

/-- `bip_get_broadcast_address`: fills a `BACNET_ADDRESS` with
`mac_len = 6`, the MAC being 4 bytes of `BIP_Broadcast_Addr` followed
by 2 bytes of `BIP_Port`, `net = BACNET_BROADCAST_NETWORK`, `len = 0`
and `adr` zeroed. -/
def bip_get_broadcast_address (dest : BACNET_ADDRESS) (s : BIPState) : BACNET_ADDRESS :=
  { dest with
    mac_len := 6
    mac := s.BIP_Broadcast_Addr ++ s.BIP_Port ++ dest.mac.drop 6
    net := BACNET_BROADCAST_NETWORK
    len := 0
    adr := List.replicate MAX_MAC_LEN 0 }

/-- `bip_cleanup`: closes each socket that is not `-1`, sets both socket
descriptors to `-1`, and zeroes the stored IP address and broadcast
address.  The returned list records the file descriptors passed to
`close`, in order. -/
def bip_cleanup (s : BIPState) : BIPState × List Int :=
  ({ s with
      BIP_Socket := -1
      BIP_Broadcast_Socket := -1
      BIP_Address := [0, 0, 0, 0]
      BIP_Broadcast_Addr := [0, 0, 0, 0] },
    (if s.BIP_Socket ≠ -1 then [s.BIP_Socket] else []) ++
      (if s.BIP_Broadcast_Socket ≠ -1 then [s.BIP_Broadcast_Socket] else []))

/-- `bip_send_mpdu`: if the driver is uninitialized (`BIP_Socket < 0`)
it returns `BIP_Socket` without calling `sendto`; otherwise it returns
exactly what `sendto` returned.  `sendto_result` is the value the OS
call returns (`-1` on a socket error, otherwise the byte count). -/
def bip_send_mpdu (s : BIPState) (sendto_result : Int) : Int :=
  if s.BIP_Socket < 0 then s.BIP_Socket else sendto_result

/-- Values returned by the OS calls and the external BVLC handlers
during one `bip_receive` call: the `select` result, which of the two
sockets was readable (`FD_ISSET(BIP_Socket, ...)`), the `recvfrom`
result and the datagram bytes it stored, and the offsets returned by
`bvlc_handler` / `bvlc_broadcast_handler` (which live in `h_bbmd.c`,
outside the sources at hand). -/
structure BipReceiveEnv where
  select_result : Int
  fd_isset_unicast : Bool
  recv_result : Int
  datagram : List Nat
  bvlc_handler_offset : Int
  bvlc_broadcast_handler_offset : Int
deriving DecidableEq

/-- `bip_receive`: returns the NPDU length handed to the caller and,
when a frame is delivered, the NPDU bytes (the datagram shifted left
by the BVLC handler's offset).  Mirrors the source's control flow:
closed socket, `select` timeout, `recvfrom` error or zero bytes, a
first byte that is not `BVLL_TYPE_BACNET_IP`, and a handler offset
`≤ 0` all return `0` with no NPDU; a handler offset `> 0` yields
`npdu_len = received_bytes - offset` (as `uint16_t`, i.e. reduced
modulo 2^16), delivered only if `npdu_len ≤ max_npdu`, else dropped. -/
def bip_receive (s : BIPState) (env : BipReceiveEnv) (max_npdu : Nat) :
    Nat × Option (List Nat) :=
  if s.BIP_Socket < 0 then (0, none)
  else if env.select_result ≤ 0 then (0, none)
  else if env.recv_result < 0 then (0, none)
  else if env.recv_result = 0 then (0, none)
  else if env.datagram.headD 0 ≠ BVLL_TYPE_BACNET_IP then (0, none)
  else
    let offset : Int :=
      if env.fd_isset_unicast then env.bvlc_handler_offset
      else env.bvlc_broadcast_handler_offset
    if 0 < offset then
      let npdu_len : Nat := ((env.recv_result - offset) % 65536).toNat
      if npdu_len ≤ max_npdu then
        (npdu_len, some ((env.datagram.drop offset.toNat).take npdu_len))
      else (0, none)
    else (0, none)

/-- Values produced by the OS during one `bip_init` call: the IPv4
address and broadcast address that `bip_set_interface` reads from the
interface via `getifaddrs` (a lookup failure yields the all-zero
address), and the descriptors returned by the two `createSocket`
calls (negative on `socket`/`setsockopt`/`bind` failure). -/
structure BipInitEnv where
  iface_address : List Nat
  iface_broadcast : List Nat
  sock_fd : Int
  broadcast_sock_fd : Int
deriving DecidableEq

/-- `bip_set_interface`: stores the interface's IPv4 address and
broadcast address into the driver state. -/
def bip_set_interface (s : BIPState) (env : BipInitEnv) : BIPState :=
  { s with
    BIP_Address := env.iface_address
    BIP_Broadcast_Addr := env.iface_broadcast }

/-- `bip_init`: sets the interface addresses; fails if the resulting
`BIP_Address` is zero; creates and stores the unicast socket, failing
if that is negative; then either shares the unicast socket (when the
broadcast binding address equals the unicast address) or creates the
broadcast socket, calling `bip_cleanup` and failing if that is
negative.  Returns the `bool` result together with the final state. -/
def bip_init (s : BIPState) (env : BipInitEnv) : Bool × BIPState :=
  let s1 := bip_set_interface s env
  if s1.BIP_Address = [0, 0, 0, 0] then (false, s1)
  else
    let s2 := { s1 with BIP_Socket := env.sock_fd }
    if env.sock_fd < 0 then (false, s2)
    else
      let bcast_bind : List Nat :=
        if s2.BIP_Broadcast_Binding_Address_Override then
          s2.BIP_Broadcast_Binding_Address
        else s2.BIP_Broadcast_Addr
      if bcast_bind = s2.BIP_Address then
        (true, { s2 with BIP_Broadcast_Socket := s2.BIP_Socket })
      else
        let s3 := { s2 with BIP_Broadcast_Socket := env.broadcast_sock_fd }
        if env.broadcast_sock_fd < 0 then (false, (bip_cleanup s3).1)
        else (true, s3)

/-- Results of the external collaborators consulted by
`handler_write_property` (`h_wp.c`): the request length and segmented
flag from the APDU header, the `wp_decode_service_request` result, the
relinquish-bypass outcome, the `write_property_bacnet_array_valid`
check, the `Device_Write_Property` outcome, and the error class/code
left in `wp_data` when the write fails. -/
structure WPEnv where
  service_len : Nat
  segmented_message : Bool
  decode_len : Int
  relinquish_bypass : Bool
  array_valid : Bool
  device_write_success : Bool
  error_class : Nat
  error_code : Nat
deriving DecidableEq

/-- The single APDU that `handler_write_property` encodes into the
transmit buffer behind the NPDU header. -/
inductive WPResponse where
  | rejectMissingRequiredParameter
  | abortSegmentationNotSupported
  | abortOther
  | simpleAck
  | errorResponse (error_class : Nat) (error_code : Nat)
deriving DecidableEq

/-- `handler_write_property`: chooses the response APDU following the
source's `bcontinue`/`success` control flow, then calls
`datalink_send_pdu` exactly once.  The second component counts the
`datalink_send_pdu` calls made. -/
def handler_write_property (env : WPEnv) : WPResponse × Nat :=
  let response : WPResponse :=
    if env.service_len = 0 then
      WPResponse.rejectMissingRequiredParameter
    else if env.segmented_message then
      WPResponse.abortSegmentationNotSupported
    else if env.decode_len ≤ 0 then
      WPResponse.abortOther
    else
      let success := env.relinquish_bypass ||
        (env.array_valid && env.device_write_success)
      if success then WPResponse.simpleAck
      else WPResponse.errorResponse env.error_class env.error_code
  (response, 1)

/-- Modelled from the spec: decidable power-of-two test used by the ring
buffer's `Ringbuf_Init` validation ("element_count must be a power of
two"); the implementation file `ringbuf.c` is not among the sources at
hand, only its header. -/
def is_power_of_two (n : Nat) : Bool :=
  n ≠ 0 && 2 ^ Nat.log2 n = n

/-- Modelled from the spec: the ring buffer structure
(`struct ring_buffer_t` of ringbuf.h).  The backing memory of
`element_count` slots of `element_size` bytes is embedded as a list of
`element_count` byte chunks; `head` (next write) and `tail` (next
read) are free-running counters wrapped onto slots via bitmask, and
`depth` is the high-water mark.  `ringbuf.c` is not among the sources
at hand. -/
structure RING_BUFFER where
  buffer : List (List Nat)
  element_size : Nat
  element_count : Nat
  head : Nat
  tail : Nat
  depth : Nat
deriving DecidableEq

/-- Modelled from the spec: a free-running index wrapped onto a slot of
the ring buffer via bitmask (`ringbuf.c` is not among the sources at
hand; the spec requires "branch-free index wrap via bitmask, not
modulo, requiring power-of-two capacity"). -/
def ringbuf_index (b : RING_BUFFER) (i : Nat) : Nat :=
  i &&& (b.element_count - 1)

/-- Modelled from the spec: `Ringbuf_Count`, the number of occupied
elements, the difference of the free-running write and read counters
(`ringbuf.c` is not among the sources at hand). -/
def Ringbuf_Count (b : RING_BUFFER) : Nat :=
  b.head - b.tail

/-- Modelled from the spec: `Ringbuf_Full` holds when the occupied
count equals the capacity (`ringbuf.c` is not among the sources at
hand). -/
def Ringbuf_Full (b : RING_BUFFER) : Bool :=
  Ringbuf_Count b = b.element_count

/-- Modelled from the spec: `Ringbuf_Empty` holds when no element is
occupied (`ringbuf.c` is not among the sources at hand). -/
def Ringbuf_Empty (b : RING_BUFFER) : Bool :=
  Ringbuf_Count b = 0

/-- Modelled from the spec: `Ringbuf_Depth` returns the high-water mark
(`ringbuf.c` is not among the sources at hand). -/
def Ringbuf_Depth (b : RING_BUFFER) : Nat :=
  b.depth

/-- Modelled from the spec: `Ringbuf_Depth_Reset` re-bases the
high-water mark at the current occupancy and returns the previous mark
(`ringbuf.c` is not among the sources at hand; the spec calls this
"high-water mark tracking and reset"). -/
def Ringbuf_Depth_Reset (b : RING_BUFFER) : RING_BUFFER × Nat :=
  ({ b with depth := Ringbuf_Count b }, b.depth)

/-- Modelled from the spec: `Ringbuf_Put` copies one element-sized
chunk into the head slot and advances `head`, failing (and leaving the
buffer unchanged) when full, and raising the high-water mark to the
new count when that exceeds it (`ringbuf.c` is not among the sources
at hand). -/
def Ringbuf_Put (b : RING_BUFFER) (data_element : List Nat) : RING_BUFFER × Bool :=
  if Ringbuf_Full b then (b, false)
  else
    let b' := { b with
      buffer := b.buffer.set (ringbuf_index b b.head) data_element
      head := b.head + 1 }
    let count := Ringbuf_Count b'
    ({ b' with depth := if b'.depth < count then count else b'.depth }, true)

/-- Modelled from the spec: `Ringbuf_Pop` copies the tail chunk out and
advances `tail`, failing (returning `none` and leaving the buffer
unchanged) when empty (`ringbuf.c` is not among the sources at
hand). -/
def Ringbuf_Pop (b : RING_BUFFER) : RING_BUFFER × Option (List Nat) :=
  if Ringbuf_Empty b then (b, none)
  else
    ({ b with tail := b.tail + 1 },
      some (b.buffer.getD (ringbuf_index b b.tail) []))

/-- Modelled from the spec: the ring buffer state produced by a
successful `Ringbuf_Init`: the caller-supplied backing buffer is bound
without allocation and `head`, `tail` and `depth` are reset to zero
(`ringbuf.c` is not among the sources at hand). -/
def ringbuf_initial (buffer : List (List Nat)) (element_size element_count : Nat) :
    RING_BUFFER :=
  { buffer := buffer
    element_size := element_size
    element_count := element_count
    head := 0
    tail := 0
    depth := 0 }

/-- Modelled from the spec: `Ringbuf_Init` fails (returns `none`, the
embedding of a `false` return) if `element_count` is zero or not a
power of two, or if `element_size` is zero; otherwise it binds the
caller-supplied buffer and zeroes `head`/`tail`/`depth` (`ringbuf.c`
is not among the sources at hand). -/
def Ringbuf_Init (buffer : List (List Nat)) (element_size element_count : Nat) :
    Option RING_BUFFER :=
  if element_size ≠ 0 && is_power_of_two element_count then
    some (ringbuf_initial buffer element_size element_count)
  else none

/-- One call in a client's sequence of ring-buffer operations. -/
inductive RBOp where
  | put (e : List Nat)
  | pop
  | depth_reset
deriving DecidableEq

/-- One ring-buffer call: the successor state, and the element a
successful `Ringbuf_Pop` returned. -/
def rb_step (b : RING_BUFFER) (op : RBOp) : RING_BUFFER × Option (List Nat) :=
  match op with
  | RBOp.put e => ((Ringbuf_Put b e).1, none)
  | RBOp.pop => Ringbuf_Pop b
  | RBOp.depth_reset => ((Ringbuf_Depth_Reset b).1, none)

/-- The ring-buffer state after a sequence of calls. -/
def rb_run (b : RING_BUFFER) (ops : List RBOp) : RING_BUFFER :=
  ops.foldl (fun b op => (rb_step b op).1) b

/-- The elements returned by the successful `Ringbuf_Pop` calls of a
sequence, in call order. -/
def rb_outputs (b : RING_BUFFER) (ops : List RBOp) : List (List Nat) :=
  match ops with
  | [] => []
  | op :: rest =>
    (rb_step b op).2.toList ++ rb_outputs (rb_step b op).1 rest

/-- The specification's view of the ring buffer: a bounded FIFO queue
of at most `cap` elements together with the high-water mark. -/
structure FifoModel where
  q : List (List Nat)
  cap : Nat
  depth : Nat
deriving DecidableEq

/-- One call against the specification's bounded FIFO queue: a put on a
full queue fails, a pop takes the oldest element, the high-water mark
follows the maximum occupancy and a reset re-bases it at the current
occupancy. -/
def fifo_step (m : FifoModel) (op : RBOp) : FifoModel × Option (List Nat) :=
  match op with
  | RBOp.put e =>
    if m.q.length = m.cap then (m, none)
    else ({ m with q := m.q ++ [e], depth := max m.depth (m.q.length + 1) }, none)
  | RBOp.pop =>
    match m.q with
    | [] => (m, none)
    | e :: rest => ({ m with q := rest }, some e)
  | RBOp.depth_reset => ({ m with depth := m.q.length }, none)

/-- The FIFO-queue state after a sequence of calls. -/
def fifo_run (m : FifoModel) (ops : List RBOp) : FifoModel :=
  ops.foldl (fun m op => (fifo_step m op).1) m

/-- The elements returned by the successful pops of a sequence run
against the specification's FIFO queue, in call order. -/
def fifo_outputs (m : FifoModel) (ops : List RBOp) : List (List Nat) :=
  match ops with
  | [] => []
  | op :: rest =>
    (fifo_step m op).2.toList ++ fifo_outputs (fifo_step m op).1 rest

/-- The empty FIFO queue of capacity `cap`. -/
def fifo_init (cap : Nat) : FifoModel :=
  { q := [], cap := cap, depth := 0 }

/-- The occupancy observed at each point of a run of the specification's
FIFO queue: the occupancy before the first call, then after each call. -/
def fifo_counts (m : FifoModel) (ops : List RBOp) : List Nat :=
  match ops with
  | [] => [m.q.length]
  | op :: rest => m.q.length :: fifo_counts (fifo_step m op).1 rest

/-- The maximum of a list of naturals (`0` for the empty list). -/
def max_list (l : List Nat) : Nat :=
  l.foldr max 0

/-- The simulation relation between a concrete ring buffer and the
specification's FIFO queue: capacities agree and are a positive power
of two, the backing store has one slot per capacity unit, the
free-running counters are ordered and span exactly the queue's
occupancy (at most the capacity), the high-water marks agree, and the
`i`-th queued element sits in slot `(tail + i) mod cap`. -/
def RbAbs (b : RING_BUFFER) (m : FifoModel) : Prop :=
  b.element_count = m.cap ∧
  0 < m.cap ∧
  (∃ k, m.cap = 2 ^ k) ∧
  b.buffer.length = m.cap ∧
  b.tail ≤ b.head ∧
  b.head - b.tail = m.q.length ∧
  m.q.length ≤ m.cap ∧
  b.depth = m.depth ∧
  ∀ i : Nat, i < m.q.length →
    b.buffer.getD ((b.tail + i) % m.cap) [] = m.q.getD i []

lemma is_power_of_two_iff (n : Nat) : is_power_of_two n = true ↔ ∃ k, n = 2 ^ k := by
  unfold is_power_of_two
  simp only [ne_eq, Bool.and_eq_true, decide_eq_true_eq]
  constructor
  · rintro ⟨-, h⟩
    exact ⟨Nat.log2 n, h.symm⟩
  · rintro ⟨k, rfl⟩
    refine ⟨(Nat.pos_pow_of_pos k (by norm_num)).ne', ?_⟩
    rw [Nat.log2_eq_log_two, Nat.log_pow one_lt_two]

lemma ringbuf_index_eq_mod (b : RING_BUFFER) (k : Nat)
    (h : b.element_count = 2 ^ k) (i : Nat) :
    ringbuf_index b i = i % b.element_count := by
  unfold ringbuf_index
  rw [h, Nat.and_pow_two_sub_one_eq_mod]

lemma mod_add_ne (t x n : Nat) (hx : 0 < x) (hxn : x < n) :
    (t + x) % n ≠ t % n := by
  intro h
  have h1 : t ≡ t + x [MOD n] := h.symm
  have h2 := (Nat.modEq_iff_dvd' (Nat.le_add_right t x)).mp h1
  rw [Nat.add_sub_cancel_left] at h2
  exact absurd (Nat.le_of_dvd hx h2) (not_le.mpr hxn)

lemma RbAbs_full_iff {b : RING_BUFFER} {m : FifoModel} (h : RbAbs b m) :
    Ringbuf_Full b = true ↔ m.q.length = m.cap := by
  obtain ⟨hcap, -, -, -, -, hcount, -, -, -⟩ := h
  unfold Ringbuf_Full Ringbuf_Count
  rw [hcap, hcount]
  simp

lemma RbAbs_empty_iff {b : RING_BUFFER} {m : FifoModel} (h : RbAbs b m) :
    Ringbuf_Empty b = true ↔ m.q.length = 0 := by
  obtain ⟨-, -, -, -, -, hcount, -, -, -⟩ := h
  unfold Ringbuf_Empty Ringbuf_Count
  rw [hcount]
  simp


/-- Each ring-buffer call simulates the corresponding call on the
specification's bounded FIFO queue: the relation is preserved and the
popped elements agree. -/
theorem rb_fifo_step (b : RING_BUFFER) (m : FifoModel) (h : RbAbs b m) (op : RBOp) :
    RbAbs (rb_step b op).1 (fifo_step m op).1 ∧
      (rb_step b op).2 = (fifo_step m op).2 := by
  have hR := h
  obtain ⟨hcap, hpos, ⟨k, hk⟩, hlen, hle, hcount, hbound, hdepth, hslot⟩ := h
  have hmask : ∀ i, ringbuf_index b i = i % m.cap := by
    intro i
    rw [ringbuf_index_eq_mod b k (hcap.trans hk), hcap]
  cases op with
  | put e =>
    by_cases hfull : m.q.length = m.cap
    · have hb : Ringbuf_Full b = true := (RbAbs_full_iff hR).mpr hfull
      simp only [rb_step, fifo_step, Ringbuf_Put]
      rw [if_pos hb, if_pos hfull]
      exact ⟨hR, rfl⟩
    · have hb : ¬(Ringbuf_Full b = true) := fun hh => hfull ((RbAbs_full_iff hR).mp hh)
      have hlt : m.q.length < m.cap := lt_of_le_of_ne hbound hfull
      have hhead : b.head = b.tail + m.q.length := by omega
      simp only [rb_step, fifo_step, Ringbuf_Put]
      rw [if_neg hb, if_neg hfull]
      refine ⟨⟨hcap, hpos, ⟨k, hk⟩, ?_, ?_, ?_, ?_, ?_, ?_⟩, rfl⟩
      · dsimp only
        simpa using hlen
      · dsimp only
        omega
      · simp only [Ringbuf_Count, List.length_append, List.length_cons,
          List.length_nil]
        omega
      · simp only [List.length_append, List.length_cons, List.length_nil]
        omega
      · dsimp only [Ringbuf_Count]
        have hc : b.head + 1 - b.tail = m.q.length + 1 := by omega
        rw [hc, hdepth]
        rcases Nat.lt_or_ge m.depth (m.q.length + 1) with hcmp | hcmp
        · rw [if_pos hcmp, Nat.max_eq_right (Nat.le_of_lt hcmp)]
        · rw [if_neg (Nat.not_lt.mpr hcmp), Nat.max_eq_left hcmp]
      · dsimp only
        intro i hi
        rw [List.length_append, List.length_cons, List.length_nil] at hi
        rw [hmask]
        by_cases hie : i < m.q.length
        · have hne : b.head % m.cap ≠ (b.tail + i) % m.cap := by
            have hsplit : b.head = (b.tail + i) + (m.q.length - i) := by omega
            rw [hsplit]
            exact mod_add_ne (b.tail + i) (m.q.length - i) m.cap (by omega) (by omega)
          have hslot' := hslot i hie
          simp only [List.getD_eq_getElem?_getD] at hslot' ⊢
          rw [List.getElem?_set_ne hne, hslot', List.getElem?_append_left hie]
        · have hieq : i = m.q.length := by omega
          subst hieq
          rw [← hhead]
          have hbl : b.head % m.cap < b.buffer.length := by
            rw [hlen]
            exact Nat.mod_lt _ hpos
          simp only [List.getD_eq_getElem?_getD]
          rw [List.getElem?_set_eq_of_lt e hbl,
            List.getElem?_append_right (Nat.le_refl _)]
          simp
  | pop =>
    by_cases hemp : m.q.length = 0
    · have hq : m.q = [] := List.length_eq_zero.mp hemp
      have hb : Ringbuf_Empty b = true := (RbAbs_empty_iff hR).mpr hemp
      simp only [rb_step, fifo_step, Ringbuf_Pop, hq]
      rw [if_pos hb]
      exact ⟨hR, rfl⟩
    · obtain ⟨e, rest, hq⟩ : ∃ e rest, m.q = e :: rest := by
        cases hq' : m.q with
        | nil => rw [hq'] at hemp; simp at hemp
        | cons e rest => exact ⟨e, rest, rfl⟩
      have hb : ¬(Ringbuf_Empty b = true) := fun hh => hemp ((RbAbs_empty_iff hR).mp hh)
      have hout : b.buffer.getD (ringbuf_index b b.tail) [] = e := by
        rw [hmask]
        have h0 := hslot 0 (by omega)
        rw [Nat.add_zero] at h0
        rw [h0, hq]
        simp
      have hql : m.q.length = rest.length + 1 := by rw [hq]; simp
      simp only [rb_step, fifo_step, Ringbuf_Pop, hq]
      rw [if_neg hb]
      refine ⟨⟨hcap, hpos, ⟨k, hk⟩, hlen, ?_, ?_, ?_, hdepth, ?_⟩, by rw [hout]⟩
      · dsimp only
        omega
      · dsimp only [Ringbuf_Count]
        omega
      · dsimp only
        omega
      · dsimp only
        intro i hi
        have hi1 : i + 1 < m.q.length := by omega
        have hsl := hslot (i + 1) hi1
        have harr : b.tail + 1 + i = b.tail + (i + 1) := by omega
        rw [harr, hsl, hq]
        simp
  | depth_reset =>
    simp only [rb_step, fifo_step, Ringbuf_Depth_Reset]
    refine ⟨⟨hcap, hpos, ⟨k, hk⟩, hlen, hle, hcount, hbound, ?_, hslot⟩, by trivial⟩
    dsimp only [Ringbuf_Count]
    omega

/-- A ring buffer related to the specification's FIFO queue stays
related over every sequence of calls, and the two runs pop the same
elements in the same order. -/
theorem rb_fifo_run (b : RING_BUFFER) (m : FifoModel) (h : RbAbs b m)
    (ops : List RBOp) :
    RbAbs (rb_run b ops) (fifo_run m ops) ∧ rb_outputs b ops = fifo_outputs m ops := by
  induction ops generalizing b m with
  | nil => exact ⟨h, rfl⟩
  | cons op rest ih =>
    have hstep := rb_fifo_step b m h op
    have hrest := ih (rb_step b op).1 (fifo_step m op).1 hstep.1
    refine ⟨hrest.1, ?_⟩
    simp only [rb_outputs, fifo_outputs, hstep.2, hrest.2]

lemma RbAbs_initial (buf : List (List Nat)) (esize C k : Nat)
    (hC : C = 2 ^ k) (hbuf : buf.length = C) :
    RbAbs (ringbuf_initial buf esize C) (fifo_init C) := by
  refine ⟨rfl, ?_, ⟨k, hC⟩, hbuf, Nat.le_refl 0, rfl, ?_, rfl, ?_⟩
  · rw [hC]
    exact Nat.pos_pow_of_pos k (by norm_num)
  · simp [fifo_init]
  · intro i hi
    simp [fifo_init] at hi

lemma RbAbs_count {b : RING_BUFFER} {m : FifoModel} (h : RbAbs b m) :
    Ringbuf_Count b = m.q.length := by
  obtain ⟨-, -, -, -, -, hcount, -, -, -⟩ := h
  exact hcount

lemma RbAbs_depth {b : RING_BUFFER} {m : FifoModel} (h : RbAbs b m) :
    Ringbuf_Depth b = m.depth := by
  obtain ⟨-, -, -, -, -, -, -, hdepth, -⟩ := h
  exact hdepth

lemma fifo_run_nil (m : FifoModel) : fifo_run m [] = m := rfl

lemma fifo_run_cons (m : FifoModel) (op : RBOp) (ops : List RBOp) :
    fifo_run m (op :: ops) = fifo_run (fifo_step m op).1 ops := rfl

lemma rb_run_cons (b : RING_BUFFER) (op : RBOp) (ops : List RBOp) :
    rb_run b (op :: ops) = rb_run (rb_step b op).1 ops := rfl

lemma fifo_run_append (m : FifoModel) (ops1 ops2 : List RBOp) :
    fifo_run m (ops1 ++ ops2) = fifo_run (fifo_run m ops1) ops2 := by
  simp [fifo_run, List.foldl_append]

lemma rb_run_append (b : RING_BUFFER) (ops1 ops2 : List RBOp) :
    rb_run b (ops1 ++ ops2) = rb_run (rb_run b ops1) ops2 := by
  simp [rb_run, List.foldl_append]

lemma fifo_outputs_append (m : FifoModel) (ops1 ops2 : List RBOp) :
    fifo_outputs m (ops1 ++ ops2) =
      fifo_outputs m ops1 ++ fifo_outputs (fifo_run m ops1) ops2 := by
  induction ops1 generalizing m with
  | nil => simp [fifo_outputs, fifo_run_nil]
  | cons op rest ih =>
    simp only [List.cons_append, fifo_outputs, fifo_run_cons]
    rw [show rest.append ops2 = rest ++ ops2 from rfl, ih, List.append_assoc]

/-- The FIFO queue's capacity is never changed by a call. -/
lemma fifo_run_cap (m : FifoModel) (ops : List RBOp) :
    (fifo_run m ops).cap = m.cap := by
  induction ops generalizing m with
  | nil => rfl
  | cons op rest ih =>
    rw [fifo_run_cons, ih]
    cases op with
    | put e =>
      simp only [fifo_step]
      split <;> rfl
    | pop =>
      simp only [fifo_step]
      cases m.q <;> rfl
    | depth_reset => rfl

/-- Putting a batch of elements into a just-reset queue with room for
all of them appends them and raises the mark to the final occupancy. -/
lemma fifo_run_puts (m : FifoModel) (es : List (List Nat))
    (hroom : m.q.length + es.length ≤ m.cap) (hd : m.depth = m.q.length) :
    fifo_run m (es.map RBOp.put) =
      { q := m.q ++ es, cap := m.cap, depth := m.q.length + es.length } := by
  induction es generalizing m with
  | nil =>
    simp only [List.map_nil, fifo_run_nil, List.append_nil, List.length_nil,
      Nat.add_zero]
    cases m with
    | mk q cap depth => simp_all
  | cons e rest ih =>
    simp only [List.map_cons, fifo_run_cons]
    have hne : ¬(m.q.length = m.cap) := by
      simp only [List.length_cons] at hroom
      omega
    simp only [fifo_step]
    rw [if_neg hne]
    have hmax : max m.depth (m.q.length + 1) = m.q.length + 1 := by
      rw [hd]
      exact Nat.max_eq_right (Nat.le_succ _)
    rw [hmax]
    rw [ih]
    · simp only [List.length_append, List.length_cons, List.length_nil,
        FifoModel.mk.injEq]
      refine ⟨by simp, trivial, by omega⟩
    · simp only [List.length_append, List.length_cons, List.length_nil] at hroom ⊢
      omega
    · simp

/-- Popping `M` times drops the first `M` queued elements and leaves
the mark alone. -/
lemma fifo_run_pops (m : FifoModel) (M : Nat) :
    fifo_run m (List.replicate M RBOp.pop) =
      { q := m.q.drop M, cap := m.cap, depth := m.depth } := by
  induction M generalizing m with
  | zero =>
    simp only [List.replicate, fifo_run_nil, List.drop_zero]
  | succ M ih =>
    rw [List.replicate_succ, fifo_run_cons]
    cases hq : m.q with
    | nil =>
      simp only [fifo_step, hq]
      rw [ih]
      simp [hq]
    | cons e rest =>
      simp only [fifo_step, hq]
      rw [ih]
      simp [hq]

/-- Popping `M` times returns the first `M` queued elements in order. -/
lemma fifo_outputs_pops (m : FifoModel) (M : Nat) :
    fifo_outputs m (List.replicate M RBOp.pop) = m.q.take M := by
  induction M generalizing m with
  | zero => simp [List.replicate, fifo_outputs]
  | succ M ih =>
    rw [List.replicate_succ]
    cases hq : m.q with
    | nil =>
      simp only [fifo_outputs, fifo_step, hq, ih]
      simp [hq]
    | cons e rest =>
      simp only [fifo_outputs, fifo_step, hq, ih]
      simp [hq]

/-- Puts return no elements. -/
lemma fifo_outputs_puts (m : FifoModel) (es : List (List Nat)) :
    fifo_outputs m (es.map RBOp.put) = [] := by
  induction es generalizing m with
  | nil => rfl
  | cons e rest ih =>
    simp only [List.map_cons, fifo_outputs, fifo_step]
    split <;> simp [ih]

/-- The first observed occupancy bounds the maximum observed
occupancy from below. -/
lemma q_length_le_max_list_counts (m : FifoModel) (ops : List RBOp) :
    m.q.length ≤ max_list (fifo_counts m ops) := by
  cases ops with
  | nil => simp [fifo_counts, max_list]
  | cons op rest =>
    simp only [fifo_counts, max_list, List.foldr_cons]
    exact Nat.le_max_left _ _

/-- A non-reset call never lowers the ring buffer's high-water mark. -/
lemma rb_depth_mono (b : RING_BUFFER) (op : RBOp) (h : op ≠ RBOp.depth_reset) :
    b.depth ≤ (rb_step b op).1.depth := by
  cases op with
  | put e =>
    simp only [rb_step, Ringbuf_Put]
    split
    · exact Nat.le_refl _
    · dsimp only
      split <;> omega
  | pop =>
    simp only [rb_step, Ringbuf_Pop]
    split
    · exact Nat.le_refl _
    · exact Nat.le_refl _
  | depth_reset => exact absurd rfl h

/-- Over a reset-free run whose starting mark dominates the starting
occupancy, the final mark is the starting mark joined with the maximum
occupancy observed during the run. -/
lemma fifo_depth_char (m : FifoModel) (ops : List RBOp)
    (hinv : m.q.length ≤ m.depth) (hops : RBOp.depth_reset ∉ ops) :
    (fifo_run m ops).depth = max m.depth (max_list (fifo_counts m ops)) := by
  induction ops generalizing m with
  | nil =>
    simp only [fifo_run_nil, fifo_counts, max_list, List.foldr_cons, List.foldr_nil]
    omega
  | cons op rest ih =>
    have hop : op ≠ RBOp.depth_reset := fun hh => hops (hh ▸ List.mem_cons_self op rest)
    have hrest : RBOp.depth_reset ∉ rest := fun hh => hops (List.mem_cons_of_mem op hh)
    rw [fifo_run_cons]
    simp only [fifo_counts, max_list, List.foldr_cons]
    cases op with
    | put e =>
      by_cases hfull : m.q.length = m.cap
      · have hstep : (fifo_step m (RBOp.put e)).1 = m := by
          simp only [fifo_step]
          rw [if_pos hfull]
        rw [hstep, ih m hinv hrest]
        have hle := q_length_le_max_list_counts m rest
        unfold max_list at hle ⊢
        omega
      · have hstep : (fifo_step m (RBOp.put e)).1 =
            { q := m.q ++ [e], cap := m.cap, depth := max m.depth (m.q.length + 1) } := by
          simp only [fifo_step]
          rw [if_neg hfull]
        rw [hstep]
        set m1 : FifoModel :=
          { q := m.q ++ [e], cap := m.cap, depth := max m.depth (m.q.length + 1) } with hm1
        have hinv1 : m1.q.length ≤ m1.depth := by
          rw [hm1]
          simp only [List.length_append, List.length_cons, List.length_nil]
          have := Nat.le_max_right m.depth (m.q.length + 1)
          omega
        rw [ih m1 hinv1 hrest]
        have hle := q_length_le_max_list_counts m1 rest
        have hq1 : m1.q.length = m.q.length + 1 := by
          rw [hm1]
          simp
        have hd1 : m1.depth = max m.depth (m.q.length + 1) := rfl
        unfold max_list at hle ⊢
        rw [hd1]
        omega
    | pop =>
      cases hq : m.q with
      | nil =>
        have hstep : (fifo_step m RBOp.pop).1 = m := by
          simp only [fifo_step, hq]
        rw [hstep, ih m hinv hrest]
        have hle := q_length_le_max_list_counts m rest
        have h0 : m.q.length = 0 := by simp [hq]
        unfold max_list at hle ⊢
        simp only [List.length_nil]
        omega
      | cons e tl =>
        have hstep : (fifo_step m RBOp.pop).1 =
            { q := tl, cap := m.cap, depth := m.depth } := by
          simp only [fifo_step, hq]
        rw [hstep]
        set m1 : FifoModel := { q := tl, cap := m.cap, depth := m.depth } with hm1
        have hinv1 : m1.q.length ≤ m1.depth := by
          rw [hm1]
          have : m.q.length = tl.length + 1 := by rw [hq]; simp
          dsimp only
          omega
        rw [ih m1 hinv1 hrest]
        have hle := q_length_le_max_list_counts m1 rest
        have hq1 : m1.q.length = tl.length := by rw [hm1]
        have hml : m.q.length = tl.length + 1 := by rw [hq]; simp
        have hd1 : m1.depth = m.depth := rfl
        unfold max_list at hle ⊢
        simp only [List.length_cons]
        omega
    | depth_reset => exact absurd rfl hop

/-- A run ending in a reset leaves the mark equal to the occupancy. -/
lemma fifo_run_last_reset (m : FifoModel) (ops1 : List RBOp) :
    (fifo_run m (ops1 ++ [RBOp.depth_reset])).depth =
      (fifo_run m (ops1 ++ [RBOp.depth_reset])).q.length := by
  rw [fifo_run_append]
  simp [fifo_run, fifo_step]

/-- C1: For every valid power-of-two capacity `C` (and nonzero element
size, with a caller buffer of `C` slots), `Ringbuf_Init` succeeds and,
from the initialized buffer: every sequence of `Ringbuf_Put` /
`Ringbuf_Pop` / `Ringbuf_Depth_Reset` calls pops exactly the elements
the specification's bounded FIFO queue pops, in the same order (in
particular, `N ≤ C` puts followed by `M ≤ N` pops return the first `M`
elements in put order and leave `Ringbuf_Count = N − M`);
`Ringbuf_Full` holds iff `Ringbuf_Count` equals `C`; `Ringbuf_Depth`
never decreases across a non-reset call, and after any run it equals
the maximum occupancy observed since the last `Ringbuf_Depth_Reset`
(since initialization when there is none). -/
theorem C1_ringbuf_fifo_contract (C esize k : Nat) (buf : List (List Nat))
    (hC : C = 2 ^ k) (hes : 0 < esize) (hbuf : buf.length = C) :
    Ringbuf_Init buf esize C = some (ringbuf_initial buf esize C) ∧
    (∀ ops : List RBOp,
      rb_outputs (ringbuf_initial buf esize C) ops = fifo_outputs (fifo_init C) ops) ∧
    (∀ es : List (List Nat), ∀ M : Nat, es.length ≤ C → M ≤ es.length →
      rb_outputs (ringbuf_initial buf esize C)
          (es.map RBOp.put ++ List.replicate M RBOp.pop) = es.take M ∧
      Ringbuf_Count (rb_run (ringbuf_initial buf esize C)
          (es.map RBOp.put ++ List.replicate M RBOp.pop)) = es.length - M) ∧
    (∀ ops : List RBOp,
      Ringbuf_Full (rb_run (ringbuf_initial buf esize C) ops) = true ↔
        Ringbuf_Count (rb_run (ringbuf_initial buf esize C) ops) = C) ∧
    (∀ ops : List RBOp, ∀ op : RBOp, op ≠ RBOp.depth_reset →
      Ringbuf_Depth (rb_run (ringbuf_initial buf esize C) ops) ≤
        Ringbuf_Depth (rb_run (ringbuf_initial buf esize C) (ops ++ [op]))) ∧
    (∀ ops : List RBOp, RBOp.depth_reset ∉ ops →
      Ringbuf_Depth (rb_run (ringbuf_initial buf esize C) ops) =
        max_list (fifo_counts (fifo_init C) ops)) ∧
    (∀ ops1 ops2 : List RBOp, RBOp.depth_reset ∉ ops2 →
      Ringbuf_Depth (rb_run (ringbuf_initial buf esize C)
          (ops1 ++ RBOp.depth_reset :: ops2)) =
        max_list (fifo_counts
          (fifo_run (fifo_init C) (ops1 ++ [RBOp.depth_reset])) ops2)) := by
  have habs := RbAbs_initial buf esize C k hC hbuf
  refine ⟨?_, ?_, ?_, ?_, ?_, ?_, ?_⟩
  · unfold Ringbuf_Init
    rw [if_pos]
    simp only [Bool.and_eq_true, decide_eq_true_eq]
    exact ⟨hes.ne', (is_power_of_two_iff C).mpr ⟨k, hC⟩⟩
  · intro ops
    exact (rb_fifo_run _ _ habs ops).2
  · intro es M hesC hM
    have hsim := rb_fifo_run _ _ habs (es.map RBOp.put ++ List.replicate M RBOp.pop)
    have hputs : fifo_run (fifo_init C) (es.map RBOp.put) =
        { q := es, cap := C, depth := es.length } := by
      have := fifo_run_puts (fifo_init C) es (by simpa [fifo_init] using hesC)
        (by simp [fifo_init])
      simpa [fifo_init] using this
    constructor
    · rw [hsim.2, fifo_outputs_append, fifo_outputs_puts, hputs, fifo_outputs_pops]
      simp
    · rw [RbAbs_count hsim.1, fifo_run_append, hputs, fifo_run_pops]
      simp
  · intro ops
    have hsim := rb_fifo_run _ _ habs ops
    rw [RbAbs_full_iff hsim.1, RbAbs_count hsim.1, fifo_run_cap]
    rfl
  · intro ops op hop
    rw [rb_run_append]
    have : rb_run (rb_run (ringbuf_initial buf esize C) ops) [op] =
        (rb_step (rb_run (ringbuf_initial buf esize C) ops) op).1 := rfl
    rw [this]
    exact rb_depth_mono _ op hop
  · intro ops hops
    have hsim := rb_fifo_run _ _ habs ops
    rw [RbAbs_depth hsim.1]
    rw [fifo_depth_char (fifo_init C) ops (by simp [fifo_init]) hops]
    simp [fifo_init]
  · intro ops1 ops2 hops2
    have hsplit : ops1 ++ RBOp.depth_reset :: ops2 =
        (ops1 ++ [RBOp.depth_reset]) ++ ops2 := by simp
    have hsim := rb_fifo_run _ _ habs (ops1 ++ RBOp.depth_reset :: ops2)
    rw [RbAbs_depth hsim.1, hsplit, fifo_run_append]
    set m1 := fifo_run (fifo_init C) (ops1 ++ [RBOp.depth_reset]) with hm1
    have hdq : m1.depth = m1.q.length := fifo_run_last_reset (fifo_init C) ops1
    rw [fifo_depth_char m1 ops2 (Nat.le_of_eq hdq.symm) hops2]
    have hle := q_length_le_max_list_counts m1 ops2
    rw [hdq]
    exact Nat.max_eq_right hle

/-- C1 witness: the contract instantiated at capacity 2 (= 2^1),
element size 1, and a 2-slot caller buffer. -/
theorem C1_ringbuf_fifo_contract_witness :
    Ringbuf_Init [[0], [0]] 1 2 = some (ringbuf_initial [[0], [0]] 1 2) :=
  (C1_ringbuf_fifo_contract 2 1 1 [[0], [0]] rfl (by decide) (by decide)).1

set_option maxRecDepth 4000 in
/-- C2: `Ringbuf_Init` fails exactly when `element_count` is zero or
not a power of two or `element_size` is zero; in particular it rejects
element counts 0, 3, 5 and 100 and accepts 1, 2, 4, 64 and 1024; and
on success it binds the caller-supplied buffer (no allocation) and
resets `head`, `tail` and `depth` to zero. -/
theorem C2_ringbuf_init_validation :
    (∀ (buf : List (List Nat)) (esize C : Nat),
      (Ringbuf_Init buf esize C).isSome = true ↔ (0 < esize ∧ ∃ j, C = 2 ^ j)) ∧
    (Ringbuf_Init (List.replicate 0 ([] : List Nat)) 1 0 = none ∧
      Ringbuf_Init (List.replicate 3 ([] : List Nat)) 1 3 = none ∧
      Ringbuf_Init (List.replicate 5 ([] : List Nat)) 1 5 = none ∧
      Ringbuf_Init (List.replicate 100 ([] : List Nat)) 1 100 = none ∧
      (Ringbuf_Init (List.replicate 1 ([] : List Nat)) 1 1).isSome = true ∧
      (Ringbuf_Init (List.replicate 2 ([] : List Nat)) 1 2).isSome = true ∧
      (Ringbuf_Init (List.replicate 4 ([] : List Nat)) 1 4).isSome = true ∧
      (Ringbuf_Init (List.replicate 64 ([] : List Nat)) 1 64).isSome = true ∧
      (Ringbuf_Init (List.replicate 1024 ([] : List Nat)) 1 1024).isSome = true) ∧
    (∀ (buf : List (List Nat)) (esize C : Nat) (b : RING_BUFFER),
      Ringbuf_Init buf esize C = some b →
      b.buffer = buf ∧ b.element_size = esize ∧ b.element_count = C ∧
        b.head = 0 ∧ b.tail = 0 ∧ b.depth = 0) := by
  refine ⟨?_, ?_, ?_⟩
  · intro buf esize C
    unfold Ringbuf_Init
    split
    · rename_i hcond
      simp only [Bool.and_eq_true, decide_eq_true_eq] at hcond
      simp only [Option.isSome_some, true_iff]
      exact ⟨Nat.pos_of_ne_zero hcond.1, (is_power_of_two_iff C).mp hcond.2⟩
    · rename_i hcond
      simp only [Bool.and_eq_true, decide_eq_true_eq] at hcond
      simp only [Option.isSome_none, Bool.false_eq_true, false_iff]
      intro ⟨h1, j, h2⟩
      exact hcond ⟨h1.ne', (is_power_of_two_iff C).mpr ⟨j, h2⟩⟩
  · refine ⟨?_, ?_, ?_, ?_, ?_, ?_, ?_, ?_, ?_⟩ <;>
      simp [Ringbuf_Init, is_power_of_two, Nat.log2]
  · intro buf esize C b hinit
    unfold Ringbuf_Init at hinit
    split at hinit
    · injection hinit with hb
      subst hb
      exact ⟨rfl, rfl, rfl, rfl, rfl, rfl⟩
    · exact absurd hinit (by simp)

/-- C2 witness: a successful init at element count 1 binds the given
one-slot buffer and zeroes the counters. -/
theorem C2_ringbuf_init_validation_witness :
    (ringbuf_initial [[5]] 1 1).buffer = [[5]] ∧
      (ringbuf_initial [[5]] 1 1).element_size = 1 ∧
      (ringbuf_initial [[5]] 1 1).element_count = 1 ∧
      (ringbuf_initial [[5]] 1 1).head = 0 ∧
      (ringbuf_initial [[5]] 1 1).tail = 0 ∧
      (ringbuf_initial [[5]] 1 1).depth = 0 :=
  C2_ringbuf_init_validation.2.2 [[5]] 1 1 (ringbuf_initial [[5]] 1 1)
    (by simp [Ringbuf_Init, is_power_of_two, Nat.log2])

/-- A driver state as left by a successful initialization: open
sockets, an interface address, a broadcast address, and the default
BACnet/IP port 0xBAC0. -/
def bip_state_ready : BIPState :=
  { BIP_Socket := 3
    BIP_Broadcast_Socket := 4
    BIP_Port := [0xBA, 0xC0]
    BIP_Address := [192, 168, 0, 2]
    BIP_Broadcast_Addr := [192, 168, 0, 255]
    BIP_Broadcast_Binding_Address_Override := false
    BIP_Broadcast_Binding_Address := [0, 0, 0, 0] }

/-- The driver state before any initialization: both sockets `-1`,
addresses zero. -/
def bip_state_uninit : BIPState :=
  { BIP_Socket := -1
    BIP_Broadcast_Socket := -1
    BIP_Port := [0xBA, 0xC0]
    BIP_Address := [0, 0, 0, 0]
    BIP_Broadcast_Addr := [0, 0, 0, 0]
    BIP_Broadcast_Binding_Address_Override := false
    BIP_Broadcast_Binding_Address := [0, 0, 0, 0] }

/-- C3: a received datagram whose first byte is not the BACnet/IP
signature, and a datagram the BVLC handler rejects (offset `≤ 0`), are
both silently dropped: `bip_receive` returns `0` and delivers no
NPDU. -/
theorem C3_bip_receive_drops_malformed (s : BIPState) (env : BipReceiveEnv)
    (max_npdu : Nat) :
    (env.datagram.headD 0 ≠ BVLL_TYPE_BACNET_IP →
      bip_receive s env max_npdu = (0, none)) ∧
    ((if env.fd_isset_unicast then env.bvlc_handler_offset
        else env.bvlc_broadcast_handler_offset) ≤ 0 →
      bip_receive s env max_npdu = (0, none)) := by
  unfold bip_receive
  constructor
  · intro hsig
    split_ifs <;> rfl
  · intro hoff
    cases hfd : env.fd_isset_unicast <;> rw [hfd] at hoff <;>
      simp only [Bool.false_eq_true, if_false, if_true] at hoff ⊢ <;>
      split_ifs <;> first | rfl | omega

/-- C3 witness: a datagram starting with 0x55 instead of 0x81 is
dropped by an initialized driver. -/
theorem C3_bip_receive_drops_malformed_witness :
    bip_receive bip_state_ready
      { select_result := 1, fd_isset_unicast := true, recv_result := 4,
        datagram := [0x55, 1, 2, 3], bvlc_handler_offset := 4,
        bvlc_broadcast_handler_offset := 4 } 50 = (0, none) :=
  (C3_bip_receive_drops_malformed bip_state_ready
    { select_result := 1, fd_isset_unicast := true, recv_result := 4,
      datagram := [0x55, 1, 2, 3], bvlc_handler_offset := 4,
      bvlc_broadcast_handler_offset := 4 } 50).1 (by decide)

/-- C4 counterexample: the address filled in by
`bip_get_broadcast_address` carries the broadcast network sentinel
with a MAC length of 6, not 0. -/
theorem C4_counterexample_mac_len_six :
    (bip_get_broadcast_address
        { mac_len := 0, mac := [0, 0, 0, 0, 0, 0, 0], net := 0, len := 0,
          adr := [0, 0, 0, 0, 0, 0, 0] } bip_state_ready).net =
      BACNET_BROADCAST_NETWORK ∧
    (bip_get_broadcast_address
        { mac_len := 0, mac := [0, 0, 0, 0, 0, 0, 0], net := 0, len := 0,
          adr := [0, 0, 0, 0, 0, 0, 0] } bip_state_ready).mac_len ≠ 0 := by
  decide

/-- C4 (amended): the `BACNET_ADDRESS` filled in by
`bip_get_broadcast_address` has `net = BACNET_BROADCAST_NETWORK` and a
six-byte MAC (the broadcast IPv4 address followed by the UDP port),
with `len = 0` and `adr` all zero; the zero-MAC-length rule for the
broadcast sentinel belongs to the NPDU destination encoding, not to
this datalink-level address. -/
theorem C4_broadcast_address_fields (dest : BACNET_ADDRESS) (s : BIPState)
    (h4 : s.BIP_Broadcast_Addr.length = 4) (h2 : s.BIP_Port.length = 2) :
    (bip_get_broadcast_address dest s).net = BACNET_BROADCAST_NETWORK ∧
    (bip_get_broadcast_address dest s).mac_len = 6 ∧
    (bip_get_broadcast_address dest s).mac.take 6 =
      s.BIP_Broadcast_Addr ++ s.BIP_Port ∧
    (bip_get_broadcast_address dest s).len = 0 ∧
    ∀ x ∈ (bip_get_broadcast_address dest s).adr, x = 0 := by
  unfold bip_get_broadcast_address
  refine ⟨rfl, rfl, ?_, rfl, ?_⟩
  · dsimp only
    have hlen : (s.BIP_Broadcast_Addr ++ s.BIP_Port).length = 6 := by
      rw [List.length_append, h4, h2]
    rw [List.append_assoc, ← List.append_assoc]
    exact List.take_left' hlen
  · dsimp only
    intro x hx
    exact List.eq_of_mem_replicate hx

/-- C4 witness: the amended fields at a concrete initialized state. -/
theorem C4_broadcast_address_fields_witness :
    (bip_get_broadcast_address
        { mac_len := 0, mac := [0, 0, 0, 0, 0, 0, 0], net := 0, len := 0,
          adr := [0, 0, 0, 0, 0, 0, 0] } bip_state_ready).net =
      BACNET_BROADCAST_NETWORK ∧
    (bip_get_broadcast_address
        { mac_len := 0, mac := [0, 0, 0, 0, 0, 0, 0], net := 0, len := 0,
          adr := [0, 0, 0, 0, 0, 0, 0] } bip_state_ready).mac_len = 6 ∧
    (bip_get_broadcast_address
        { mac_len := 0, mac := [0, 0, 0, 0, 0, 0, 0], net := 0, len := 0,
          adr := [0, 0, 0, 0, 0, 0, 0] } bip_state_ready).mac.take 6 =
      bip_state_ready.BIP_Broadcast_Addr ++ bip_state_ready.BIP_Port ∧
    (bip_get_broadcast_address
        { mac_len := 0, mac := [0, 0, 0, 0, 0, 0, 0], net := 0, len := 0,
          adr := [0, 0, 0, 0, 0, 0, 0] } bip_state_ready).len = 0 ∧
    ∀ x ∈ (bip_get_broadcast_address
        { mac_len := 0, mac := [0, 0, 0, 0, 0, 0, 0], net := 0, len := 0,
          adr := [0, 0, 0, 0, 0, 0, 0] } bip_state_ready).adr, x = 0 :=
  C4_broadcast_address_fields
    { mac_len := 0, mac := [0, 0, 0, 0, 0, 0, 0], net := 0, len := 0,
      adr := [0, 0, 0, 0, 0, 0, 0] } bip_state_ready (by decide) (by decide)

/-- C5: `bip_cleanup` is idempotent and deterministic: a second call
leaves exactly the state of the first and closes nothing further, and
after any call both sockets are `-1` and the stored IP and broadcast
addresses are zero, regardless of the prior state. -/
theorem C5_bip_cleanup_idempotent (s : BIPState) :
    (bip_cleanup (bip_cleanup s).1).1 = (bip_cleanup s).1 ∧
    (bip_cleanup (bip_cleanup s).1).2 = [] ∧
    (bip_cleanup s).1.BIP_Socket = -1 ∧
    (bip_cleanup s).1.BIP_Broadcast_Socket = -1 ∧
    (bip_cleanup s).1.BIP_Address = [0, 0, 0, 0] ∧
    (bip_cleanup s).1.BIP_Broadcast_Addr = [0, 0, 0, 0] := by
  unfold bip_cleanup
  simp

/-- C6: socket-level send failures are reported as a negative byte
count: with an uninitialized driver `bip_send_mpdu` returns the
negative `BIP_Socket` without calling `sendto`; otherwise it returns
exactly the `sendto` result, so a socket error's `-1` propagates and a
success returns the byte count. -/
theorem C6_bip_send_mpdu_reports_errors (s : BIPState) (sendto_result : Int) :
    (s.BIP_Socket < 0 →
      bip_send_mpdu s sendto_result = s.BIP_Socket ∧
        bip_send_mpdu s sendto_result < 0) ∧
    (0 ≤ s.BIP_Socket → bip_send_mpdu s sendto_result = sendto_result) := by
  unfold bip_send_mpdu
  constructor
  · intro hneg
    rw [if_pos hneg]
    exact ⟨rfl, hneg⟩
  · intro hok
    rw [if_neg (by omega)]

/-- C6 witness: an uninitialized driver returns its `-1` socket as the
send result. -/
theorem C6_bip_send_mpdu_reports_errors_witness :
    bip_send_mpdu bip_state_uninit 10 = bip_state_uninit.BIP_Socket ∧
      bip_send_mpdu bip_state_uninit 10 < 0 :=
  (C6_bip_send_mpdu_reports_errors bip_state_uninit 10).1 (by decide)

/-- C7: `bip_init` returns `false` whenever the interface yields no IP
address or creating either UDP socket fails, returns `true` exactly
when the unicast socket is configured and the broadcast socket is
either shared or successfully created, and a `false` return from an
uninitialized state (with POSIX `-1` failures) leaves the datalink
invalid. -/
theorem C7_bip_init_rejects_misconfiguration (s : BIPState) (env : BipInitEnv) :
    (env.iface_address = [0, 0, 0, 0] → (bip_init s env).1 = false) ∧
    (env.sock_fd < 0 → (bip_init s env).1 = false) ∧
    ((bip_init s env).1 = true ↔
      env.iface_address ≠ [0, 0, 0, 0] ∧ 0 ≤ env.sock_fd ∧
      ((if s.BIP_Broadcast_Binding_Address_Override then
          s.BIP_Broadcast_Binding_Address
        else env.iface_broadcast) = env.iface_address ∨
        0 ≤ env.broadcast_sock_fd)) ∧
    (s.BIP_Socket = -1 → (env.sock_fd < 0 → env.sock_fd = -1) →
      (bip_init s env).1 = false → bip_valid (bip_init s env).2 = false) := by
  unfold bip_init bip_set_interface bip_cleanup bip_valid
  dsimp only
  refine ⟨?_, ?_, ?_, ?_⟩
  · intro h0
    split_ifs <;> simp_all
  · intro hneg
    split_ifs <;> simp_all
  · split_ifs with h1 h2 h3 h4 <;> simp_all
  · intro hsock hfd
    split_ifs with h1 h2 h3 h4 <;> simp_all

/-- C7 witness: an interface with no IP address makes `bip_init` fail
and leaves the datalink invalid. -/
theorem C7_bip_init_rejects_misconfiguration_witness :
    (bip_init bip_state_uninit
      { iface_address := [0, 0, 0, 0], iface_broadcast := [255, 255, 255, 255],
        sock_fd := 3, broadcast_sock_fd := 4 }).1 = false :=
  (C7_bip_init_rejects_misconfiguration bip_state_uninit
    { iface_address := [0, 0, 0, 0], iface_broadcast := [255, 255, 255, 255],
      sock_fd := 3, broadcast_sock_fd := 4 }).1 (by decide)

/-- C8: `bip_get_my_address` produces the normalized BACnet/IP address
form: `mac_len = 6` with the MAC being the 4-byte IPv4 address
followed by the 2-byte UDP port, `net = 0` (local, no routing),
`len = 0`, and every byte of `adr` zero. -/
theorem C8_bip_get_my_address_normalized (addr : BACNET_ADDRESS) (s : BIPState)
    (h4 : s.BIP_Address.length = 4) (h2 : s.BIP_Port.length = 2) :
    (bip_get_my_address addr s).mac_len = 6 ∧
    (bip_get_my_address addr s).mac.take 6 = s.BIP_Address ++ s.BIP_Port ∧
    (bip_get_my_address addr s).net = 0 ∧
    (bip_get_my_address addr s).len = 0 ∧
    ∀ x ∈ (bip_get_my_address addr s).adr, x = 0 := by
  unfold bip_get_my_address
  refine ⟨rfl, ?_, rfl, rfl, ?_⟩
  · dsimp only
    have hlen : (s.BIP_Address ++ s.BIP_Port).length = 6 := by
      rw [List.length_append, h4, h2]
    rw [List.append_assoc, ← List.append_assoc]
    exact List.take_left' hlen
  · dsimp only
    intro x hx
    exact List.eq_of_mem_replicate hx

/-- C8 witness: the normalized address at a concrete initialized
state. -/
theorem C8_bip_get_my_address_normalized_witness :
    (bip_get_my_address
        { mac_len := 0, mac := [9, 9, 9, 9, 9, 9, 9], net := 5, len := 5,
          adr := [9, 9, 9, 9, 9, 9, 9] } bip_state_ready).mac_len = 6 ∧
    (bip_get_my_address
        { mac_len := 0, mac := [9, 9, 9, 9, 9, 9, 9], net := 5, len := 5,
          adr := [9, 9, 9, 9, 9, 9, 9] } bip_state_ready).mac.take 6 =
      bip_state_ready.BIP_Address ++ bip_state_ready.BIP_Port ∧
    (bip_get_my_address
        { mac_len := 0, mac := [9, 9, 9, 9, 9, 9, 9], net := 5, len := 5,
          adr := [9, 9, 9, 9, 9, 9, 9] } bip_state_ready).net = 0 ∧
    (bip_get_my_address
        { mac_len := 0, mac := [9, 9, 9, 9, 9, 9, 9], net := 5, len := 5,
          adr := [9, 9, 9, 9, 9, 9, 9] } bip_state_ready).len = 0 ∧
    ∀ x ∈ (bip_get_my_address
        { mac_len := 0, mac := [9, 9, 9, 9, 9, 9, 9], net := 5, len := 5,
          adr := [9, 9, 9, 9, 9, 9, 9] } bip_state_ready).adr, x = 0 :=
  C8_bip_get_my_address_normalized
    { mac_len := 0, mac := [9, 9, 9, 9, 9, 9, 9], net := 5, len := 5,
      adr := [9, 9, 9, 9, 9, 9, 9] } bip_state_ready (by decide) (by decide)

/-- C9: `bip_receive` never reports more than `max_npdu` bytes; it
returns `0` and delivers nothing when the socket is not open, on a
`select` timeout, on a `recvfrom` error, and when the NPDU left after
stripping the BVLC header would exceed `max_npdu`. -/
theorem C9_bip_receive_bounded (s : BIPState) (env : BipReceiveEnv)
    (max_npdu : Nat) :
    (bip_receive s env max_npdu).1 ≤ max_npdu ∧
    (s.BIP_Socket < 0 → bip_receive s env max_npdu = (0, none)) ∧
    (env.select_result ≤ 0 → bip_receive s env max_npdu = (0, none)) ∧
    (env.recv_result < 0 → bip_receive s env max_npdu = (0, none)) ∧
    (∀ offset : Int,
      offset = (if env.fd_isset_unicast then env.bvlc_handler_offset
        else env.bvlc_broadcast_handler_offset) →
      0 < offset →
      max_npdu < ((env.recv_result - offset) % 65536).toNat →
      bip_receive s env max_npdu = (0, none)) := by
  refine ⟨?_, ?_, ?_, ?_, ?_⟩
  · unfold bip_receive
    dsimp only
    split_ifs <;> first | exact Nat.zero_le _ | assumption
  · intro h
    unfold bip_receive
    rw [if_pos h]
  · intro h
    unfold bip_receive
    split_ifs <;> rfl
  · intro h
    unfold bip_receive
    split_ifs <;> rfl
  · intro offset hoffdef hoffpos hexceed
    unfold bip_receive
    subst hoffdef
    cases hfd : env.fd_isset_unicast <;> rw [hfd] at hexceed hoffpos <;>
      simp at hexceed hoffpos ⊢ <;> (intros; omega)

/-- C9 witness: a closed socket yields zero bytes and no NPDU. -/
theorem C9_bip_receive_bounded_witness :
    bip_receive bip_state_uninit
      { select_result := 1, fd_isset_unicast := true, recv_result := 4,
        datagram := [0x81, 1, 2, 3], bvlc_handler_offset := 4,
        bvlc_broadcast_handler_offset := 4 } 50 = (0, none) :=
  (C9_bip_receive_bounded bip_state_uninit
    { select_result := 1, fd_isset_unicast := true, recv_result := 4,
      datagram := [0x81, 1, 2, 3], bvlc_handler_offset := 4,
      bvlc_broadcast_handler_offset := 4 } 50).2.1 (by decide)

/-- C10: `handler_write_property` sends exactly one response per
request — `datalink_send_pdu` is called exactly once in every case —
and the response is chosen by case: a Reject (missing required
parameter) when `service_len` is 0; otherwise an Abort (segmentation
not supported) when the message is segmented; otherwise an Abort
(other) when decoding returns `≤ 0`; otherwise a SimpleACK when the
relinquish bypass succeeds or the array-index check passes and
`Device_Write_Property` succeeds; otherwise an Error carrying
`wp_data`'s error class and code. -/
theorem C10_handler_write_property_single_response (env : WPEnv) :
    (handler_write_property env).2 = 1 ∧
    (env.service_len = 0 →
      (handler_write_property env).1 = WPResponse.rejectMissingRequiredParameter) ∧
    (env.service_len ≠ 0 → env.segmented_message = true →
      (handler_write_property env).1 = WPResponse.abortSegmentationNotSupported) ∧
    (env.service_len ≠ 0 → env.segmented_message = false → env.decode_len ≤ 0 →
      (handler_write_property env).1 = WPResponse.abortOther) ∧
    (env.service_len ≠ 0 → env.segmented_message = false → 0 < env.decode_len →
      (env.relinquish_bypass = true ∨
        (env.array_valid = true ∧ env.device_write_success = true)) →
      (handler_write_property env).1 = WPResponse.simpleAck) ∧
    (env.service_len ≠ 0 → env.segmented_message = false → 0 < env.decode_len →
      env.relinquish_bypass = false →
      (env.array_valid = false ∨ env.device_write_success = false) →
      (handler_write_property env).1 =
        WPResponse.errorResponse env.error_class env.error_code) := by
  unfold handler_write_property
  refine ⟨rfl, ?_, ?_, ?_, ?_, ?_⟩
  · intro h0
    dsimp only
    rw [if_pos h0]
  · intro h0 hseg
    dsimp only
    rw [if_neg h0, if_pos hseg]
  · intro h0 hseg hdec
    dsimp only
    rw [if_neg h0, if_neg (by simp [hseg]), if_pos hdec]
  · intro h0 hseg hdec hsucc
    dsimp only
    rw [if_neg h0, if_neg (by simp [hseg]), if_neg (by omega), if_pos ?_]
    rcases hsucc with h | ⟨h1, h2⟩
    · simp [h]
    · simp [h1, h2]
  · intro h0 hseg hdec hbyp hfail
    dsimp only
    rw [if_neg h0, if_neg (by simp [hseg]), if_neg (by omega), if_neg ?_]
    rcases hfail with h | h <;> simp [hbyp, h]

/-- C10 witness: an empty service request draws a Reject
(missing required parameter) and exactly one send. -/
theorem C10_handler_write_property_single_response_witness :
    (handler_write_property
      { service_len := 0, segmented_message := false, decode_len := 4,
        relinquish_bypass := false, array_valid := true,
        device_write_success := true, error_class := 2, error_code := 32 }).2 = 1 ∧
    (handler_write_property
      { service_len := 0, segmented_message := false, decode_len := 4,
        relinquish_bypass := false, array_valid := true,
        device_write_success := true, error_class := 2, error_code := 32 }).1 =
      WPResponse.rejectMissingRequiredParameter :=
  ⟨(C10_handler_write_property_single_response
      { service_len := 0, segmented_message := false, decode_len := 4,
        relinquish_bypass := false, array_valid := true,
        device_write_success := true, error_class := 2, error_code := 32 }).1,
    (C10_handler_write_property_single_response
      { service_len := 0, segmented_message := false, decode_len := 4,
        relinquish_bypass := false, array_valid := true,
        device_write_success := true, error_class := 2, error_code := 32 }).2.1
      (by decide)⟩
